import Mathlib

/-!
# AgrimIT front-end scripts: navigation controller and logger

A shallow embedding of `static/js/navigation.js` and `static/js/logger.js`.

The document is a list of elements in tree order; an element reference is an
index into that list and `none` stands for JavaScript `null`.  A script
function is a state transformer over the document whose completion is either
normal (with a value) or abrupt (a `TypeError` raised by a property access on
`null`); the document reached at that point is kept in both cases.
-/

namespace AgrimIT

/-! ## Document model -/

/-- An element: its `id` attribute (if any), its class list and its other attributes. -/
structure Element where
  id : Option String
  classList : List String
  attributes : List (String × String)
deriving DecidableEq

/-- The part of the page the scripts read and write. -/
structure Document where
  elements : List Element
  bodyOverflow : String
deriving DecidableEq

/-- An element reference, `none` being `null`. -/
abbrev Ref := Option Nat

/-- Index of the first element of the list whose id is `id`. -/
def findById (id : String) : List Element → Option Nat
  | [] => none
  | e :: es => if e.id = some id then some 0 else (findById id es).map (· + 1)

/-- Model of `document.getElementById(id)`. -/
def getElementById (d : Document) (id : String) : Ref :=
  findById id d.elements

/-- Apply `f` to the element at position `i` (no change when out of range). -/
def updateAt (f : Element → Element) : Nat → List Element → List Element
  | _, [] => []
  | 0, e :: es => f e :: es
  | n + 1, e :: es => e :: updateAt f n es

/-- Model of `classList.contains(cls)`. -/
def Element.hasClass (e : Element) (cls : String) : Bool :=
  decide (cls ∈ e.classList)

/-- Model of `classList.add(cls)`. -/
def Element.addClass (cls : String) (e : Element) : Element :=
  if cls ∈ e.classList then e else { e with classList := e.classList ++ [cls] }

/-- Model of `classList.remove(cls)`. -/
def Element.removeClass (cls : String) (e : Element) : Element :=
  { e with classList := e.classList.filter (fun c => decide (c ≠ cls)) }

/-- Replace the value of attribute `name` in an attribute list, or append it. -/
def setAttr (name value : String) : List (String × String) → List (String × String)
  | [] => [(name, value)]
  | (k, v) :: rest => if k = name then (k, value) :: rest else (k, v) :: setAttr name value rest

/-- Look an attribute up. -/
def getAttr (name : String) : List (String × String) → Option String
  | [] => none
  | (k, v) :: rest => if k = name then some v else getAttr name rest

/-- Model of `el.setAttribute(name, value)` on the element itself. -/
def Element.setAttribute (name value : String) (e : Element) : Element :=
  { e with attributes := setAttr name value e.attributes }

/-- Model of `el.getAttribute(name)` on the element itself. -/
def Element.getAttribute (e : Element) (name : String) : Option String :=
  getAttr name e.attributes

/-- An element matched by the selector `.navbar-submenu.show`. -/
def Element.isShownSubmenu (e : Element) : Bool :=
  e.hasClass "navbar-submenu" && e.hasClass "show"

/-- What `closeAllSubmenus` does to one element: `show` is removed when the
element matches `.navbar-submenu.show`. -/
def Element.hideIfShownSubmenu (e : Element) : Element :=
  if e.isShownSubmenu then Element.removeClass "show" e else e

/-! ## Script execution -/

/-- How a script function completes: normally with a value, or abruptly with a
`TypeError`; `doc` is the document at that point. -/
inductive Completion (α : Type) where
  | normal (value : α) (doc : Document)
  | abrupt (doc : Document)
deriving DecidableEq

/-- The document a completion leaves behind. -/
def Completion.doc {α : Type} : Completion α → Document
  | .normal _ d => d
  | .abrupt d => d

/-- Whether a completion is abrupt. -/
def Completion.threw {α : Type} : Completion α → Bool
  | .normal _ _ => false
  | .abrupt _ => true

/-- A script computation over the document. -/
def Js (α : Type) : Type := Document → Completion α

/-- Return a value without touching the document. -/
def Js.pure {α : Type} (a : α) : Js α := fun d => .normal a d

/-- Run `x`, then `f` on its value; an abrupt completion of `x` skips `f`. -/
def Js.bind {α β : Type} (x : Js α) (f : α → Js β) : Js β := fun d =>
  match x d with
  | .normal a d1 => f a d1
  | .abrupt d1 => .abrupt d1

instance : Monad Js where
  pure := Js.pure
  bind := Js.bind

/-- Raise a `TypeError`. -/
def throwTypeError {α : Type} : Js α := fun d => .abrupt d

/-- Rewrite the document. -/
def modifyDoc (f : Document → Document) : Js Unit := fun d => .normal () (f d)

/-- Read from the document. -/
def readDoc {α : Type} (f : Document → α) : Js α := fun d => .normal (f d) d

/-- Apply `f` to the element a reference points at. -/
def Document.update (d : Document) (i : Nat) (f : Element → Element) : Document :=
  { d with elements := updateAt f i d.elements }

/-- Model of `ref.classList.add(cls)`; a `TypeError` when `ref` is `null`. -/
def classListAdd (r : Ref) (cls : String) : Js Unit :=
  match r with
  | none => throwTypeError
  | some i => modifyDoc (fun d => d.update i (Element.addClass cls))

/-- Model of `ref.classList.remove(cls)`; a `TypeError` when `ref` is `null`. -/
def classListRemove (r : Ref) (cls : String) : Js Unit :=
  match r with
  | none => throwTypeError
  | some i => modifyDoc (fun d => d.update i (Element.removeClass cls))

/-- Whether the element at `i` carries class `cls`. -/
def Document.hasClassAt (d : Document) (i : Nat) (cls : String) : Bool :=
  match d.elements[i]? with
  | some e => e.hasClass cls
  | none => false

/-- Model of `ref.classList.contains(cls)`; a `TypeError` when `ref` is `null`. -/
def classListContains (r : Ref) (cls : String) : Js Bool :=
  match r with
  | none => throwTypeError
  | some i => readDoc (fun d => d.hasClassAt i cls)

/-- Model of `ref.setAttribute(name, value)`; a `TypeError` when `ref` is `null`. -/
def setAttribute (r : Ref) (name value : String) : Js Unit :=
  match r with
  | none => throwTypeError
  | some i => modifyDoc (fun d => d.update i (Element.setAttribute name value))

/-- Attribute `name` of the element at `i`, if it has one. -/
def Document.attrAt (d : Document) (i : Nat) (name : String) : Option String :=
  match d.elements[i]? with
  | some e => e.getAttribute name
  | none => none

/-- Model of `ref.contains(e.target)`, the answer for a present `ref` being
given by `inside`; a `TypeError` when `ref` is `null`. -/
def nodeContains (r : Ref) (inside : Bool) : Js Bool :=
  match r with
  | none => throwTypeError
  | some _ => Js.pure inside

/-- The document with `body.style.overflow` set to `v`. -/
def Document.withOverflow (d : Document) (v : String) : Document :=
  { d with bodyOverflow := v }

/-- Model of `body.style.overflow = v`. -/
def setBodyOverflow (v : String) : Js Unit :=
  modifyDoc (fun d => d.withOverflow v)

/-! ## navigation.js -/

/-- The three references the `DOMContentLoaded` callback captures. -/
structure Controller where
  hamburgerBtn : Ref
  navList : Ref
  navOverlay : Ref
deriving DecidableEq

/-- The `const` declarations at the top of the callback. -/
def Controller.capture (d : Document) : Controller :=
  { hamburgerBtn := getElementById d "hamburger-btn"
    navList := getElementById d "nav-list"
    navOverlay := getElementById d "nav-overlay" }

/-- The document after `show` has been removed from every element matching
`.navbar-submenu.show`. -/
def Document.hideSubmenus (d : Document) : Document :=
  { d with elements := d.elements.map Element.hideIfShownSubmenu }

/-- Model of `closeAllSubmenus`. -/
def closeAllSubmenus : Js Unit :=
  modifyDoc Document.hideSubmenus

/-- Model of `openMenu`. -/
def openMenu (c : Controller) : Js Unit := do
  classListAdd c.hamburgerBtn "active"
  classListAdd c.navList "active"
  classListAdd c.navOverlay "active"
  setBodyOverflow "hidden"
  setAttribute c.hamburgerBtn "aria-expanded" "true"
  setAttribute c.navList "aria-hidden" "false"

/-- Model of `closeMenu`. -/
def closeMenu (c : Controller) : Js Unit := do
  classListRemove c.hamburgerBtn "active"
  classListRemove c.navList "active"
  classListRemove c.navOverlay "active"
  setBodyOverflow ""
  closeAllSubmenus
  setAttribute c.hamburgerBtn "aria-expanded" "false"
  setAttribute c.navList "aria-hidden" "true"

/-- Model of `toggleMenu`. -/
def toggleMenu (c : Controller) : Js Unit := do
  let isActive ← classListContains c.navList "active"
  if isActive then closeMenu c else openMenu c

/-- Model of `toggleSubmenu`. -/
def toggleSubmenu (submenuId : String) : Js Unit := do
  let submenu ← readDoc (fun d => getElementById d submenuId)
  match submenu with
  | none => pure ()
  | some i =>
    let isShow ← classListContains (some i) "show"
    closeAllSubmenus
    if !isShow then classListAdd (some i) "show"

/-- Model of `isMobileView`, `w` being `window.innerWidth`. -/
def isMobileView (w : Int) : Bool := decide (w ≤ 768)

/-- The hamburger `click` listener; it is attached only when the button exists. -/
def hamburgerClick (c : Controller) : Js Unit :=
  match c.hamburgerBtn with
  | none => pure ()
  | some _ => toggleMenu c

/-- The overlay `click` listener; it is attached only when the overlay exists. -/
def overlayClick (c : Controller) : Js Unit :=
  match c.navOverlay with
  | none => pure ()
  | some _ => closeMenu c

/-- The `mouseenter` listener of a dropdown item whose `.navbar-submenu`
descendant is the element `submenu`. -/
def mouseEnter (w : Int) (submenu : Nat) : Js Unit := do
  if !isMobileView w then
    closeAllSubmenus
    classListAdd (some submenu) "show"

/-- The `mouseleave` listener of the same item. -/
def mouseLeave (w : Int) (submenu : Nat) : Js Unit := do
  if !isMobileView w then
    classListRemove (some submenu) "show"

/-- The callback the `resize` listener schedules (it runs after 100 ms of quiet). -/
def resizeAction (c : Controller) (w : Int) : Js Unit := do
  if !isMobileView w then
    closeMenu c

/-- The document `keydown` listener. -/
def documentKeydown (c : Controller) (key : String) : Js Unit := do
  if key = "Escape" then
    if (← classListContains c.navList "active") then
      closeMenu c

/-- The document `click` listener; `inNavList` and `inHamburger` tell whether
the click target lies inside the menu list and inside the button. -/
def documentClick (c : Controller) (w : Int) (inNavList inHamburger : Bool) : Js Unit := do
  if isMobileView w then
    if (← classListContains c.navList "active") then
      if !(← nodeContains c.navList inNavList) then
        if !(← nodeContains c.hamburgerBtn inHamburger) then
          closeMenu c

/-- The accessibility block run at the end of the `DOMContentLoaded` callback. -/
def initAccessibility (c : Controller) : Js Unit := do
  match c.hamburgerBtn with
  | none => pure ()
  | some h =>
    setAttribute (some h) "aria-expanded" "false"
    setAttribute (some h) "aria-controls" "nav-list"
  match c.navList with
  | none => pure ()
  | some n => setAttribute (some n) "aria-hidden" "true"

/-- The `click` listener of an in-page anchor; `target` is what
`document.querySelector` returned for its `href`.  Scrolling the target into
view leaves the modelled document as it is. -/
def anchorClick (c : Controller) (w : Int) (target : Ref) : Js Unit := do
  match target with
  | none => pure ()
  | some _ =>
    if isMobileView w then
      if (← classListContains c.navList "active") then
        closeMenu c

/-- The callback the `scroll` listener schedules (it runs after 150 ms of quiet). -/
def scrollAction (w : Int) : Js Unit := do
  if !isMobileView w then
    closeAllSubmenus

/-- Model of the free function `isNavigationOpen`. -/
def isNavigationOpen (d : Document) : Bool :=
  match getElementById d "nav-list" with
  | some n => d.hasClassAt n "active"
  | none => false

/-- Model of the free function `closeNavigation`; `registered` is
`window.AgrimITNavigation`, set by the `DOMContentLoaded` callback. -/
def closeNavigation (registered : Option Controller) : Js Unit :=
  match registered with
  | none => pure ()
  | some c => closeMenu c

/-! ## Observations on a document -/

/-- MenuOpen: the menu list carries `active` (what `toggleMenu` and
`isNavigationOpen` read). -/
def menuOpen (c : Controller) (d : Document) : Bool :=
  match c.navList with
  | some n => d.hasClassAt n "active"
  | none => false

/-- A sample page: button, list, overlay and two submenus. -/
def samplePage : Document :=
  { elements :=
      [ { id := some "hamburger-btn", classList := ["hamburger"], attributes := [] },
        { id := some "nav-list", classList := ["nav-list"], attributes := [] },
        { id := some "nav-overlay", classList := [], attributes := [] },
        { id := some "sub1", classList := ["navbar-submenu"], attributes := [] },
        { id := some "sub2", classList := ["navbar-submenu", "show"], attributes := [] } ]
    bodyOverflow := "" }

/-- Whether the element at `j` matches `.navbar-submenu.show`. -/
def Document.shownAt (d : Document) (j : Nat) : Bool :=
  d.hasClassAt j "navbar-submenu" && d.hasClassAt j "show"

/-- Positions of the elements of a list that satisfy `p`. -/
def indicesWhere (p : Element → Bool) : List Element → List Nat
  | [] => []
  | e :: es => (if p e then [0] else []) ++ (indicesWhere p es).map (· + 1)

/-- The submenus currently shown (what `.navbar-submenu.show` selects), by position. -/
def shownSubmenus (d : Document) : List Nat :=
  indicesWhere Element.isShownSubmenu d.elements

/-- The submenu with id `id`: the element `getElementById` finds, provided it
carries the class `navbar-submenu`. -/
def Document.submenuWithId (d : Document) (id : String) : Option Nat :=
  match getElementById d id with
  | some i => if d.hasClassAt i "navbar-submenu" then some i else none
  | none => none

/-- Whether a reference points at an element of the document. -/
def Document.hasElement (d : Document) (r : Ref) : Bool :=
  match r with
  | some i => decide (i < d.elements.length)
  | none => false

/-- The button, the menu list and the overlay are all present. -/
def Controller.attached (c : Controller) (d : Document) : Bool :=
  d.hasElement c.hamburgerBtn && d.hasElement c.navList && d.hasElement c.navOverlay

/-- Whether `active` is on the button, the menu list and the overlay, in that order. -/
def activeFlags (c : Controller) (d : Document) : List Bool :=
  [c.hamburgerBtn, c.navList, c.navOverlay].map (fun r =>
    match r with
    | some i => d.hasClassAt i "active"
    | none => false)

/-- A call on the menu API. -/
inductive MenuCall where
  | openMenu
  | closeMenu
  | toggleMenu
deriving DecidableEq

/-- Perform one call. -/
def MenuCall.run (c : Controller) : MenuCall → Js Unit
  | .openMenu => AgrimIT.openMenu c
  | .closeMenu => AgrimIT.closeMenu c
  | .toggleMenu => AgrimIT.toggleMenu c

/-- Perform a sequence of calls, one after the other. -/
def runCalls (c : Controller) : List MenuCall → Js Unit
  | [] => pure ()
  | k :: ks => do
    k.run c
    runCalls c ks

/-- The controller transitions that touch submenus or the menu. -/
inductive Transition where
  | toggleSubmenu (id : String)
  | closeMenu
  | openMenu
  | toggleMenu
  | mouseEnter (w : Int) (submenu : Nat)
  | mouseLeave (w : Int) (submenu : Nat)
  | scrollAction (w : Int)

/-- Perform one transition. -/
def Transition.run (c : Controller) : Transition → Js Unit
  | .toggleSubmenu id => AgrimIT.toggleSubmenu id
  | .closeMenu => AgrimIT.closeMenu c
  | .openMenu => AgrimIT.openMenu c
  | .toggleMenu => AgrimIT.toggleMenu c
  | .mouseEnter w submenu => AgrimIT.mouseEnter w submenu
  | .mouseLeave w submenu => AgrimIT.mouseLeave w submenu
  | .scrollAction w => AgrimIT.scrollAction w

/-- The document once the `DOMContentLoaded` callback has run on `page`. -/
def loaded (page : Document) : Document :=
  (initAccessibility (Controller.capture page) page).doc

/-- The sample page without its menu list. -/
def pageWithoutList : Document :=
  { elements :=
      [ { id := some "hamburger-btn", classList := ["hamburger"], attributes := [] },
        { id := some "nav-overlay", classList := [], attributes := [] } ]
    bodyOverflow := "" }

/-- The sample page without its overlay. -/
def pageWithoutOverlay : Document :=
  { elements :=
      [ { id := some "hamburger-btn", classList := ["hamburger"], attributes := [] },
        { id := some "nav-list", classList := ["nav-list"], attributes := [] } ]
    bodyOverflow := "" }

/-- The sample page without its hamburger button. -/
def pageWithoutButton : Document :=
  { elements :=
      [ { id := some "nav-list", classList := ["nav-list"], attributes := [] },
        { id := some "nav-overlay", classList := [], attributes := [] } ]
    bodyOverflow := "" }

/-- A page with the button, the menu list and one submenu, but no overlay. -/
def pageWithoutOverlaySubmenu : Document :=
  { elements :=
      [ { id := some "hamburger-btn", classList := ["hamburger"], attributes := [] },
        { id := some "nav-list", classList := ["nav-list"], attributes := [] },
        { id := some "sub1", classList := ["navbar-submenu"], attributes := [] } ]
    bodyOverflow := "" }

/-- A step after which no more submenus are shown than before. -/
def NonIncreasing {α : Type} (x : Js α) : Prop :=
  ∀ d, (shownSubmenus (x d).doc).length ≤ (shownSubmenus d).length

/-! ## logger.js -/

/-- JavaScript values passed to the logger. -/
inductive JsVal where
  | undefined
  | null
  | bool (b : Bool)
  | num (n : Int)
  | nan
  | str (s : String)
  | obj (fields : List (String × JsVal))

/-- An object literal: its own properties in insertion order. -/
abbrev JsObject := List (String × JsVal)

/-- Truthiness of a value, as tested by the conditional operator. -/
def JsVal.truthy : JsVal → Bool
  | .undefined => false
  | .null => false
  | .bool b => b
  | .num n => decide (n ≠ 0)
  | .nan => false
  | .str s => decide (s ≠ "")
  | .obj _ => true

/-- A default parameter value: it replaces an argument that is `undefined`. -/
def JsVal.orDefault (arg dflt : JsVal) : JsVal :=
  match arg with
  | .undefined => dflt
  | v => v

/-- The string a header value is converted to. -/
def JsVal.toHeader : JsVal → String
  | .undefined => "undefined"
  | .null => "null"
  | .bool b => if b then "true" else "false"
  | .num n => toString n
  | .nan => "NaN"
  | .str s => s
  | .obj _ => "[object Object]"

/-- Define property `k` of an object (a later definition of the same key replaces the value). -/
def setField (k : String) (v : JsVal) : JsObject → JsObject
  | [] => [(k, v)]
  | (k1, v1) :: rest => if k1 = k then (k1, v) :: rest else (k1, v1) :: setField k v rest

/-- Spread the properties of `src` into `base`; the properties are kept in
the order they were defined (the place integer-like keys take when an object
is enumerated is not modelled). -/
def objectSpread (base src : JsObject) : JsObject :=
  src.foldl (fun acc kv => setField kv.1 kv.2 acc) base

/-- What the logger reads from the browser. -/
structure Browser where
  hostname : String
  href : String
  now : String
  cookie : String
  csrfMeta : Option (Option String)

/-- Model of `s.split(sep)` for a one-character separator. -/
def splitOn (sep : Char) : List Char → List (List Char)
  | [] => [[]]
  | c :: cs =>
    if c = sep then [] :: splitOn sep cs
    else
      match splitOn sep cs with
      | [] => [[c]]
      | p :: ps => (c :: p) :: ps

/-- The white space and line terminator characters `trim` strips. -/
def isWhiteSpace (c : Char) : Bool :=
  decide (c.toNat ∈ [9, 10, 11, 12, 13, 32, 160, 5760, 8232, 8233, 8239, 8287, 12288, 65279])
    || (decide (8192 ≤ c.toNat) && decide (c.toNat ≤ 8202))

/-- Model of `s.trim()`. -/
def trim (s : List Char) : List Char :=
  ((s.dropWhile isWhiteSpace).reverse.dropWhile isWhiteSpace).reverse

/-- The `for` loop of `getCsrfToken` over the pieces of `document.cookie`:
`some v` when the loop returns `v`, `none` when it runs to its end. -/
def scanCookies : List (List Char) → Option JsVal
  | [] => none
  | cookie :: rest =>
    match splitOn '=' (trim cookie) with
    | [] => scanCookies rest
    | [name] => if name = "csrftoken".toList then some .undefined else scanCookies rest
    | name :: value :: _ =>
      if name = "csrftoken".toList then some (.str (String.mk value)) else scanCookies rest

/-- Model of `getCsrfToken`. -/
def getCsrfToken (b : Browser) : JsVal :=
  match scanCookies (splitOn ';' b.cookie.toList) with
  | some v => v
  | none =>
    match b.csrfMeta with
    | none => .str ""
    | some none => .null
    | some (some content) => .str content

/-- The `LogLevel` constants. -/
def LogLevel.INFO : String := "info"

/-- The `warning` level. -/
def LogLevel.WARNING : String := "warning"

/-- The `error` level. -/
def LogLevel.ERROR : String := "error"

/-- The `debug` level. -/
def LogLevel.DEBUG : String := "debug"

/-- The record `logToBackend` builds. -/
structure LogData where
  level : String
  message : String
  context : JsObject
  url : String
  timestamp : String

/-- A call of `fetch`; `body` is the record that is serialised as JSON. -/
structure Request where
  url : String
  method : String
  headers : List (String × String)
  body : LogData

/-- Model of `logToBackend`: the `fetch` calls it makes. -/
def logToBackend (b : Browser) (level message : String) (context : JsObject) : List Request :=
  if level = LogLevel.DEBUG ∧ b.hostname ≠ "localhost" then []
  else
    [ { url := "/api/log-error/"
        method := "POST"
        headers := [("Content-Type", "application/json"), ("X-CSRFToken", (getCsrfToken b).toHeader)]
        body := { level := level, message := message, context := context,
                  url := b.href, timestamp := b.now } } ]

/-- Model of `Logger.info`; an omitted `context` is the empty object. -/
def Logger.info (b : Browser) (message : String) (context : Option JsObject) : List Request :=
  logToBackend b LogLevel.INFO message (context.getD [])

/-- Model of `Logger.warning`. -/
def Logger.warning (b : Browser) (message : String) (context : Option JsObject) : List Request :=
  logToBackend b LogLevel.WARNING message (context.getD [])

/-- Model of `Logger.error`. -/
def Logger.error (b : Browser) (message : String) (context : Option JsObject) : List Request :=
  logToBackend b LogLevel.ERROR message (context.getD [])

/-- Model of `Logger.debug`. -/
def Logger.debug (b : Browser) (message : String) (context : Option JsObject) : List Request :=
  logToBackend b LogLevel.DEBUG message (context.getD [])

/-- Model of `Logger.userAction`. -/
def Logger.userAction (b : Browser) (action : String) (details : Option JsObject) : List Request :=
  logToBackend b LogLevel.INFO ("User action: " ++ action)
    (objectSpread [("action", .str action)] (details.getD []))

/-- Model of `Logger.formValidation`. -/
def Logger.formValidation (b : Browser) (formName : String) (isValid : JsVal)
    (errors : Option JsObject) : List Request :=
  let level := if isValid.truthy then LogLevel.INFO else LogLevel.WARNING
  logToBackend b level ("Form validation: " ++ formName)
    [("form", .str formName), ("valid", isValid), ("errors", .obj (errors.getD []))]

/-- Model of `Logger.fileUpload`; `success` and `error` are the arguments as
passed (`undefined` when omitted), their defaults being `true` and `null`. -/
def Logger.fileUpload (b : Browser) (fileName : String) (fileSize success error : JsVal) :
    List Request :=
  let success := success.orDefault (.bool true)
  let error := error.orDefault .null
  let level := if success.truthy then LogLevel.INFO else LogLevel.ERROR
  logToBackend b level ("File upload: " ++ fileName)
    [("fileName", .str fileName), ("fileSize", fileSize), ("success", success), ("error", error)]

/-- A cookie held by the browser for the page. -/
structure Cookie where
  name : String
  value : String
deriving DecidableEq

/-- The text of one cookie in `document.cookie`: `name=value`. -/
def cookiePair (c : Cookie) : List Char :=
  c.name.toList ++ '=' :: c.value.toList

/-- The characters of `document.cookie` for a list of cookies: the pairs joined by `; `. -/
def cookieChars : List Cookie → List Char
  | [] => []
  | [c] => cookiePair c
  | c :: cs => cookiePair c ++ ';' :: Char.ofNat 32 :: cookieChars cs

/-- The value of `document.cookie` for a list of cookies. -/
def documentCookie (cs : List Cookie) : String :=
  String.mk (cookieChars cs)

/-- Cookie syntax: neither the name nor the value holds a semicolon or white
space, and the name holds no equals sign. -/
def Cookie.wellFormed (c : Cookie) : Bool :=
  c.name.toList.all (fun ch => ch != ';' && ch != '=' && !isWhiteSpace ch) &&
    c.value.toList.all (fun ch => ch != ';' && !isWhiteSpace ch)

/-- The value of the first cookie named `name`, if there is one. -/
def cookieValue (name : String) : List Cookie → Option String
  | [] => none
  | c :: cs => if c.name = name then some c.value else cookieValue name cs

/-- A browser on host `host` with cookie string `cookie` and no meta tag. -/
def sampleBrowser (host cookie : String) : Browser :=
  { hostname := host, href := "https://" ++ host ++ "/", now := "2025-01-01T00:00:00.000Z",
    cookie := cookie, csrfMeta := none }


/-! ## Lemmas: lists of elements -/

theorem getElem?_updateAt (f : Element → Element) (l : List Element) (i j : Nat) :
    (updateAt f i l)[j]? = if j = i then (l[j]?).map f else l[j]? := by
  induction l generalizing i j with
  | nil => cases i <;> simp [updateAt]
  | cons e es ih =>
    cases i with
    | zero => cases j <;> simp [updateAt]
    | succ i => cases j <;> simp [updateAt, ih]

theorem length_updateAt (f : Element → Element) (l : List Element) (i : Nat) :
    (updateAt f i l).length = l.length := by
  induction l generalizing i with
  | nil => cases i <;> simp [updateAt]
  | cons e es ih => cases i <;> simp [updateAt, ih]

/-! ## Lemmas: single elements -/

@[simp] theorem hasClass_addClass (c k : String) (e : Element) :
    (Element.addClass c e).hasClass k = (e.hasClass k || decide (k = c)) := by
  unfold Element.addClass Element.hasClass
  by_cases h : c ∈ e.classList
  · by_cases hk : k = c
    · subst hk; simp [h]
    · simp [h, hk]
  · simp [h]

@[simp] theorem hasClass_removeClass (c k : String) (e : Element) :
    (Element.removeClass c e).hasClass k = (e.hasClass k && !decide (k = c)) := by
  unfold Element.removeClass Element.hasClass
  simp [List.mem_filter]

@[simp] theorem hasClass_setAttribute (a v k : String) (e : Element) :
    (Element.setAttribute a v e).hasClass k = e.hasClass k := rfl

theorem getAttr_setAttr (a v k : String) (l : List (String × String)) :
    getAttr k (setAttr a v l) = if k = a then some v else getAttr k l := by
  induction l with
  | nil =>
    by_cases h : k = a
    · simp [setAttr, getAttr, h]
    · have : ¬ a = k := fun h1 => h h1.symm
      simp [setAttr, getAttr, h, this]
  | cons p rest ih =>
    obtain ⟨x, y⟩ := p
    by_cases hx : x = a
    · by_cases hk : k = a
      · simp [setAttr, getAttr, hx, hk]
      · have : ¬ a = k := fun h => hk h.symm
        simp [setAttr, getAttr, hx, hk, this]
    · by_cases hxk : x = k
      · have : ¬ k = a := fun h => hx (hxk.trans h)
        simp [setAttr, getAttr, hx, hxk, this]
      · simp [setAttr, getAttr, hx, hxk, ih]

@[simp] theorem getAttribute_setAttribute (a v k : String) (e : Element) :
    (Element.setAttribute a v e).getAttribute k = if k = a then some v else e.getAttribute k := by
  simp [Element.setAttribute, Element.getAttribute, getAttr_setAttr]

@[simp] theorem getAttribute_addClass (c k : String) (e : Element) :
    (Element.addClass c e).getAttribute k = e.getAttribute k := by
  unfold Element.addClass Element.getAttribute; split <;> rfl

@[simp] theorem getAttribute_removeClass (c k : String) (e : Element) :
    (Element.removeClass c e).getAttribute k = e.getAttribute k := rfl

@[simp] theorem hasClass_hideIfShownSubmenu (k : String) (e : Element) :
    (Element.hideIfShownSubmenu e).hasClass k =
      (e.hasClass k && !(decide (k = "show") && e.hasClass "navbar-submenu")) := by
  unfold Element.hideIfShownSubmenu Element.isShownSubmenu
  by_cases h1 : e.hasClass "navbar-submenu" = true
  · by_cases h2 : e.hasClass "show" = true
    · simp [h1, h2]
    · by_cases hk : k = "show"
      · subst hk; simp [h1, h2]
      · simp [h1, h2, hk]
  · simp [h1]

@[simp] theorem getAttribute_hideIfShownSubmenu (k : String) (e : Element) :
    (Element.hideIfShownSubmenu e).getAttribute k = e.getAttribute k := by
  unfold Element.hideIfShownSubmenu; split <;> rfl

/-! ## Lemmas: running script steps -/

@[simp] theorem bind_run {α β : Type} (x : Js α) (f : α → Js β) (d : Document) :
    (x >>= f) d = match x d with
      | .normal a d1 => f a d1
      | .abrupt d1 => .abrupt d1 := rfl

@[simp] theorem pure_run {α : Type} (a : α) (d : Document) :
    (pure a : Js α) d = .normal a d := rfl

@[simp] theorem classListAdd_none (k : String) (d : Document) :
    classListAdd none k d = .abrupt d := rfl

@[simp] theorem classListAdd_some (i : Nat) (k : String) (d : Document) :
    classListAdd (some i) k d = .normal () (d.update i (Element.addClass k)) := rfl

@[simp] theorem classListRemove_none (k : String) (d : Document) :
    classListRemove none k d = .abrupt d := rfl

@[simp] theorem classListRemove_some (i : Nat) (k : String) (d : Document) :
    classListRemove (some i) k d = .normal () (d.update i (Element.removeClass k)) := rfl

@[simp] theorem classListContains_none (k : String) (d : Document) :
    classListContains none k d = .abrupt d := rfl

@[simp] theorem classListContains_some (i : Nat) (k : String) (d : Document) :
    classListContains (some i) k d = .normal (d.hasClassAt i k) d := rfl

@[simp] theorem setAttribute_none (a v : String) (d : Document) :
    setAttribute none a v d = .abrupt d := rfl

@[simp] theorem setAttribute_some (i : Nat) (a v : String) (d : Document) :
    setAttribute (some i) a v d = .normal () (d.update i (Element.setAttribute a v)) := rfl

@[simp] theorem setBodyOverflow_run (v : String) (d : Document) :
    setBodyOverflow v d = .normal () (d.withOverflow v) := rfl

@[simp] theorem closeAllSubmenus_run (d : Document) :
    closeAllSubmenus d = .normal () d.hideSubmenus := rfl

@[simp] theorem readDoc_run {α : Type} (f : Document → α) (d : Document) :
    readDoc f d = .normal (f d) d := rfl

/-! ## Lemmas: observations after a step -/

theorem getElem?_update (d : Document) (i j : Nat) (f : Element → Element) :
    (d.update i f).elements[j]? = if j = i then (d.elements[j]?).map f else d.elements[j]? := by
  simp [Document.update, getElem?_updateAt]

theorem hasClassAt_update (d : Document) (i j : Nat) (f : Element → Element) (k : String) :
    (d.update i f).hasClassAt j k =
      if j = i then (match d.elements[j]? with
        | some e => (f e).hasClass k
        | none => false)
      else d.hasClassAt j k := by
  unfold Document.hasClassAt
  rw [getElem?_update]
  by_cases hji : j = i
  · rw [if_pos hji, if_pos hji]; cases d.elements[j]? <;> rfl
  · rw [if_neg hji, if_neg hji]

theorem attrAt_update (d : Document) (i j : Nat) (f : Element → Element) (k : String) :
    (d.update i f).attrAt j k =
      if j = i then (match d.elements[j]? with
        | some e => (f e).getAttribute k
        | none => none)
      else d.attrAt j k := by
  unfold Document.attrAt
  rw [getElem?_update]
  by_cases hji : j = i
  · rw [if_pos hji, if_pos hji]; cases d.elements[j]? <;> rfl
  · rw [if_neg hji, if_neg hji]

@[simp] theorem hasClassAt_update_addClass (d : Document) (i j : Nat) (c k : String) :
    (d.update i (Element.addClass c)).hasClassAt j k =
      (d.hasClassAt j k || (decide (j = i) && decide (k = c) && decide (j < d.elements.length))) := by
  rw [hasClassAt_update]
  unfold Document.hasClassAt
  by_cases hj : j < d.elements.length
  · rw [List.getElem?_eq_getElem hj]
    by_cases hji : j = i
    · subst hji; simp [hj]
    · simp [hji]
  · rw [List.getElem?_eq_none (by omega)]
    simp [hj]

@[simp] theorem hasClassAt_update_removeClass (d : Document) (i j : Nat) (c k : String) :
    (d.update i (Element.removeClass c)).hasClassAt j k =
      (d.hasClassAt j k && !(decide (j = i) && decide (k = c))) := by
  rw [hasClassAt_update]
  unfold Document.hasClassAt
  by_cases hji : j = i <;> cases d.elements[j]? <;> simp [hji]

@[simp] theorem hasClassAt_update_setAttribute (d : Document) (i j : Nat) (a v k : String) :
    (d.update i (Element.setAttribute a v)).hasClassAt j k = d.hasClassAt j k := by
  rw [hasClassAt_update]
  unfold Document.hasClassAt
  by_cases hji : j = i <;> cases d.elements[j]? <;> simp [hji]

@[simp] theorem hasClassAt_withOverflow (d : Document) (v : String) (j : Nat) (k : String) :
    (d.withOverflow v).hasClassAt j k = d.hasClassAt j k := rfl

@[simp] theorem attrAt_withOverflow (d : Document) (v : String) (j : Nat) (k : String) :
    (d.withOverflow v).attrAt j k = d.attrAt j k := rfl

@[simp] theorem attrAt_update_addClass (d : Document) (i j : Nat) (c k : String) :
    (d.update i (Element.addClass c)).attrAt j k = d.attrAt j k := by
  rw [attrAt_update]
  unfold Document.attrAt
  by_cases hji : j = i <;> cases d.elements[j]? <;> simp [hji]

@[simp] theorem attrAt_update_removeClass (d : Document) (i j : Nat) (c k : String) :
    (d.update i (Element.removeClass c)).attrAt j k = d.attrAt j k := by
  rw [attrAt_update]
  unfold Document.attrAt
  by_cases hji : j = i <;> cases d.elements[j]? <;> simp [hji]

@[simp] theorem attrAt_update_setAttribute (d : Document) (i j : Nat) (a v k : String) :
    (d.update i (Element.setAttribute a v)).attrAt j k =
      if j = i ∧ k = a ∧ j < d.elements.length then some v else d.attrAt j k := by
  rw [attrAt_update]
  unfold Document.attrAt
  by_cases hj : j < d.elements.length
  · rw [List.getElem?_eq_getElem hj]
    by_cases hji : j = i
    · subst hji; by_cases hk : k = a <;> simp [hj, hk]
    · simp [hji]
  · rw [List.getElem?_eq_none (by omega)]
    simp [hj]

@[simp] theorem length_update (d : Document) (i : Nat) (f : Element → Element) :
    (d.update i f).elements.length = d.elements.length := by
  simp [Document.update, length_updateAt]

@[simp] theorem length_withOverflow (d : Document) (v : String) :
    (d.withOverflow v).elements.length = d.elements.length := rfl

@[simp] theorem length_hideSubmenus (d : Document) :
    d.hideSubmenus.elements.length = d.elements.length := by
  simp [Document.hideSubmenus]

@[simp] theorem bodyOverflow_update (d : Document) (i : Nat) (f : Element → Element) :
    (d.update i f).bodyOverflow = d.bodyOverflow := rfl

@[simp] theorem bodyOverflow_withOverflow (d : Document) (v : String) :
    (d.withOverflow v).bodyOverflow = v := rfl

@[simp] theorem bodyOverflow_hideSubmenus (d : Document) :
    d.hideSubmenus.bodyOverflow = d.bodyOverflow := rfl

@[simp] theorem hasClassAt_hideSubmenus (d : Document) (j : Nat) (k : String) :
    d.hideSubmenus.hasClassAt j k =
      (d.hasClassAt j k && !(decide (k = "show") && d.hasClassAt j "navbar-submenu")) := by
  unfold Document.hasClassAt Document.hideSubmenus
  cases h : d.elements[j]? <;> simp [h]

@[simp] theorem attrAt_hideSubmenus (d : Document) (j : Nat) (k : String) :
    d.hideSubmenus.attrAt j k = d.attrAt j k := by
  unfold Document.attrAt Document.hideSubmenus
  cases h : d.elements[j]? <;> simp [h]

/-! ## Lemmas: ids and lookup -/

theorem findById_lt (id : String) (l : List Element) (i : Nat) (h : findById id l = some i) :
    i < l.length := by
  induction l generalizing i with
  | nil => simp [findById] at h
  | cons e es ih =>
    unfold findById at h
    split at h
    · cases h; simp
    · cases hr : findById id es with
      | none => simp [hr] at h
      | some k =>
        simp [hr] at h
        subst h
        have := ih k hr
        simp; omega

theorem findById_id (id : String) (l : List Element) (i : Nat) (h : findById id l = some i) :
    ∃ e, l[i]? = some e ∧ e.id = some id := by
  induction l generalizing i with
  | nil => simp [findById] at h
  | cons e es ih =>
    unfold findById at h
    split at h
    · cases h; exact ⟨e, by simp, by assumption⟩
    · cases hr : findById id es with
      | none => simp [hr] at h
      | some k =>
        simp [hr] at h
        subst h
        simpa using ih k hr

theorem findById_map (id : String) (f : Element → Element) (hf : ∀ e, (f e).id = e.id)
    (l : List Element) : findById id (l.map f) = findById id l := by
  induction l with
  | nil => rfl
  | cons e es ih => simp [findById, hf, ih]

theorem findById_updateAt (id : String) (f : Element → Element) (hf : ∀ e, (f e).id = e.id)
    (l : List Element) (i : Nat) : findById id (updateAt f i l) = findById id l := by
  induction l generalizing i with
  | nil => cases i <;> rfl
  | cons e es ih => cases i <;> simp [updateAt, findById, hf, ih]

theorem id_addClass (c : String) (e : Element) : (Element.addClass c e).id = e.id := by
  unfold Element.addClass; split <;> rfl

theorem id_hideIfShownSubmenu (e : Element) : (Element.hideIfShownSubmenu e).id = e.id := by
  unfold Element.hideIfShownSubmenu; split <;> rfl

@[simp] theorem getElementById_update_addClass (d : Document) (i : Nat) (c id : String) :
    getElementById (d.update i (Element.addClass c)) id = getElementById d id :=
  findById_updateAt id _ (id_addClass c) d.elements i

@[simp] theorem getElementById_hideSubmenus (d : Document) (id : String) :
    getElementById d.hideSubmenus id = getElementById d id :=
  findById_map id _ id_hideIfShownSubmenu d.elements

theorem getElementById_lt (d : Document) (id : String) (i : Nat)
    (h : getElementById d id = some i) : i < d.elements.length :=
  findById_lt id d.elements i h

theorem getElementById_ne (d : Document) (A B : String) (a b : Nat)
    (hA : getElementById d A = some a) (hB : getElementById d B = some b) (hAB : A ≠ B) :
    a ≠ b := by
  intro hab
  subst hab
  obtain ⟨e1, h1, hid1⟩ := findById_id A d.elements a hA
  obtain ⟨e2, h2, hid2⟩ := findById_id B d.elements a hB
  rw [h1] at h2
  cases h2
  rw [hid1] at hid2
  exact hAB (Option.some.inj hid2)

theorem submenuWithId_spec (d : Document) (id : String) (i : Nat)
    (h : d.submenuWithId id = some i) :
    getElementById d id = some i ∧ d.hasClassAt i "navbar-submenu" = true := by
  unfold Document.submenuWithId at h
  cases hg : getElementById d id with
  | none => simp [hg] at h
  | some k =>
    simp only [hg] at h
    by_cases hk : d.hasClassAt k "navbar-submenu" = true
    · simp [hk] at h; subst h; exact ⟨rfl, hk⟩
    · simp [hk] at h

theorem attrAt_lt (d : Document) (i : Nat) (k v : String) (h : d.attrAt i k = some v) :
    i < d.elements.length := by
  by_contra hlt
  have : d.elements[i]? = none := List.getElem?_eq_none (by omega)
  simp [Document.attrAt, this] at h

/-! ## Lemmas: the list of shown submenus -/

theorem shownAt_eq (d : Document) (j : Nat) :
    d.shownAt j = (match d.elements[j]? with
      | some e => e.isShownSubmenu
      | none => false) := by
  unfold Document.shownAt Document.hasClassAt Element.isShownSubmenu
  cases d.elements[j]? <;> rfl

theorem indicesWhere_eq_nil (p : Element → Bool) (l : List Element)
    (h : ∀ (j : Nat) (e : Element), l[j]? = some e → p e = false) : indicesWhere p l = [] := by
  induction l with
  | nil => rfl
  | cons e es ih =>
    have h0 : p e = false := h 0 e (by simp)
    have hs : indicesWhere p es = [] := by
      apply ih
      intro j x hx
      exact h (j + 1) x (by simpa using hx)
    simp [indicesWhere, h0, hs]

theorem indicesWhere_eq_singleton (p : Element → Bool) (l : List Element) (b : Nat)
    (hb : ∃ e, l[b]? = some e ∧ p e = true)
    (h : ∀ (j : Nat) (e : Element), l[j]? = some e → j ≠ b → p e = false) : indicesWhere p l = [b] := by
  induction l generalizing b with
  | nil => obtain ⟨e, he, _⟩ := hb; simp at he
  | cons e es ih =>
    cases b with
    | zero =>
      obtain ⟨x, hx, hpx⟩ := hb
      simp at hx
      subst hx
      have hs : indicesWhere p es = [] := by
        apply indicesWhere_eq_nil
        intro j y hy
        exact h (j + 1) y (by simpa using hy) (by omega)
      simp [indicesWhere, hpx, hs]
    | succ b =>
      have h0 : p e = false := h 0 e (by simp) (by omega)
      have hs : indicesWhere p es = [b] := by
        apply ih
        · obtain ⟨x, hx, hpx⟩ := hb
          exact ⟨x, by simpa using hx, hpx⟩
        · intro j y hy hj
          exact h (j + 1) y (by simpa using hy) (by omega)
      simp [indicesWhere, h0, hs]

theorem shownSubmenus_eq_nil (d : Document) (h : ∀ j, d.shownAt j = false) :
    shownSubmenus d = [] := by
  apply indicesWhere_eq_nil
  intro j e he
  have := h j
  rw [shownAt_eq, he] at this
  exact this

theorem shownSubmenus_eq_singleton (d : Document) (b : Nat) (hb : d.shownAt b = true)
    (h : ∀ j, j ≠ b → d.shownAt j = false) : shownSubmenus d = [b] := by
  apply indicesWhere_eq_singleton
  · rw [shownAt_eq] at hb
    cases he : d.elements[b]? with
    | none => simp [he] at hb
    | some e => exact ⟨e, rfl, by simpa [he] using hb⟩
  · intro j e he hj
    have := h j hj
    rw [shownAt_eq, he] at this
    exact this

theorem length_indicesWhere (p : Element → Bool) (l : List Element) :
    (indicesWhere p l).length = l.countP p := by
  induction l with
  | nil => rfl
  | cons e es ih =>
    by_cases hp : p e = true
    · simp [indicesWhere, hp, ih, List.countP_cons_of_pos]
    · simp [indicesWhere, hp, ih, List.countP_cons_of_neg]

theorem countP_updateAt_le_succ (p : Element → Bool) (f : Element → Element)
    (l : List Element) (i : Nat) : (updateAt f i l).countP p ≤ l.countP p + 1 := by
  induction l generalizing i with
  | nil => cases i <;> simp [updateAt]
  | cons e es ih =>
    cases i with
    | zero =>
      simp only [updateAt, List.countP_cons]
      split <;> split <;> omega
    | succ i =>
      simp only [updateAt, List.countP_cons]
      have := ih i
      split <;> omega

theorem countP_updateAt_le (p : Element → Bool) (f : Element → Element)
    (hf : ∀ e, p (f e) = true → p e = true) (l : List Element) (i : Nat) :
    (updateAt f i l).countP p ≤ l.countP p := by
  induction l generalizing i with
  | nil => cases i <;> simp [updateAt]
  | cons e es ih =>
    cases i with
    | zero =>
      simp only [updateAt, List.countP_cons]
      by_cases h1 : p (f e) = true
      · simp [h1, hf e h1]
      · simp [h1]
    | succ i =>
      simp only [updateAt, List.countP_cons]
      have := ih i
      split <;> omega

theorem isShownSubmenu_hide (e : Element) :
    (Element.hideIfShownSubmenu e).isShownSubmenu = false := by
  unfold Element.isShownSubmenu
  simp
  intro h _
  exact h

theorem shownSubmenus_hideSubmenus (d : Document) : shownSubmenus d.hideSubmenus = [] := by
  apply indicesWhere_eq_nil
  intro j e he
  simp only [Document.hideSubmenus, List.getElem?_map] at he
  cases hx : d.elements[j]? with
  | none => simp [hx] at he
  | some x =>
    simp [hx] at he
    subst he
    exact isShownSubmenu_hide x


/-! ## Lemmas: the menu calls -/

theorem openMenu_attached (h n o : Nat) (d : Document)
    (hh : h < d.elements.length) (hn : n < d.elements.length) :
    ∃ d1, openMenu ⟨some h, some n, some o⟩ d = .normal () d1 ∧
      d1.elements.length = d.elements.length ∧
      d1.attrAt h "aria-expanded" = some "true" ∧ d1.attrAt n "aria-hidden" = some "false" ∧
      d1.hasClassAt n "active" = true := by
  simp [openMenu, hh, hn]

theorem closeMenu_attached (h n o : Nat) (d : Document)
    (hh : h < d.elements.length) (hn : n < d.elements.length) :
    ∃ d1, closeMenu ⟨some h, some n, some o⟩ d = .normal () d1 ∧
      d1.elements.length = d.elements.length ∧
      d1.attrAt h "aria-expanded" = some "false" ∧ d1.attrAt n "aria-hidden" = some "true" ∧
      d1.hasClassAt n "active" = false := by
  simp [closeMenu, hh, hn]

theorem toggleMenu_eq (c : Controller) (n : Nat) (hn : c.navList = some n) (d : Document) :
    toggleMenu c d = if d.hasClassAt n "active" = true then closeMenu c d else openMenu c d := by
  simp only [toggleMenu, hn, bind_run, classListContains_some]
  split <;> rfl

theorem menuCall_keeps (h n o : Nat) (k : MenuCall) (d : Document)
    (hh : h < d.elements.length) (hn : n < d.elements.length) :
    ∃ d1, k.run ⟨some h, some n, some o⟩ d = .normal () d1 ∧
      d1.elements.length = d.elements.length ∧
      ((d1.attrAt h "aria-expanded" = some "true" ∧ d1.attrAt n "aria-hidden" = some "false" ∧
          d1.hasClassAt n "active" = true) ∨
        (d1.attrAt h "aria-expanded" = some "false" ∧ d1.attrAt n "aria-hidden" = some "true" ∧
          d1.hasClassAt n "active" = false)) := by
  have hopen := openMenu_attached h n o d hh hn
  have hclose := closeMenu_attached h n o d hh hn
  cases k with
  | openMenu =>
    obtain ⟨d1, h1, h2, h3⟩ := hopen
    exact ⟨d1, h1, h2, Or.inl h3⟩
  | closeMenu =>
    obtain ⟨d1, h1, h2, h3⟩ := hclose
    exact ⟨d1, h1, h2, Or.inr h3⟩
  | toggleMenu =>
    show ∃ d1, toggleMenu ⟨some h, some n, some o⟩ d = .normal () d1 ∧ _
    rw [toggleMenu_eq _ n rfl]
    split
    · obtain ⟨d1, h1, h2, h3⟩ := hclose
      exact ⟨d1, h1, h2, Or.inr h3⟩
    · obtain ⟨d1, h1, h2, h3⟩ := hopen
      exact ⟨d1, h1, h2, Or.inl h3⟩

theorem runCalls_keeps (h n o : Nat) (calls : List MenuCall) (d : Document)
    (hh : h < d.elements.length) (hn : n < d.elements.length)
    (hinv : (d.attrAt h "aria-expanded" = some "true" ∧ d.attrAt n "aria-hidden" = some "false" ∧
          d.hasClassAt n "active" = true) ∨
        (d.attrAt h "aria-expanded" = some "false" ∧ d.attrAt n "aria-hidden" = some "true" ∧
          d.hasClassAt n "active" = false)) :
    ∃ d1, runCalls ⟨some h, some n, some o⟩ calls d = .normal () d1 ∧
      ((d1.attrAt h "aria-expanded" = some "true" ∧ d1.attrAt n "aria-hidden" = some "false" ∧
          d1.hasClassAt n "active" = true) ∨
        (d1.attrAt h "aria-expanded" = some "false" ∧ d1.attrAt n "aria-hidden" = some "true" ∧
          d1.hasClassAt n "active" = false)) := by
  induction calls generalizing d with
  | nil => exact ⟨d, rfl, hinv⟩
  | cons k ks ih =>
    obtain ⟨d1, hrun, hlen, hinv1⟩ := menuCall_keeps h n o k d hh hn
    obtain ⟨d2, hrun2, hinv2⟩ := ih d1 (by omega) (by omega) hinv1
    refine ⟨d2, ?_, hinv2⟩
    simp only [runCalls, bind_run, hrun]
    exact hrun2

theorem attached_spec (c : Controller) (d : Document) (hc : c.attached d = true) :
    ∃ h n o, c = ⟨some h, some n, some o⟩ ∧ h < d.elements.length ∧ n < d.elements.length ∧
      o < d.elements.length := by
  obtain ⟨rb, rl, ro⟩ := c
  cases rb <;> cases rl <;> cases ro <;>
    simp [Controller.attached, Document.hasElement] at hc
  rename_i h n o
  exact ⟨h, n, o, rfl, hc.1.1, hc.1.2, hc.2⟩

theorem capture_attached (d : Document)
    (hb : (getElementById d "hamburger-btn").isSome = true)
    (hl : (getElementById d "nav-list").isSome = true)
    (ho : (getElementById d "nav-overlay").isSome = true) :
    (Controller.capture d).attached d = true := by
  cases h1 : getElementById d "hamburger-btn" with
  | none => simp [h1] at hb
  | some h =>
    cases h2 : getElementById d "nav-list" with
    | none => simp [h2] at hl
    | some n =>
      cases h3 : getElementById d "nav-overlay" with
      | none => simp [h3] at ho
      | some o =>
        simp [Controller.capture, Controller.attached, Document.hasElement, h1, h2, h3,
          getElementById_lt d _ _ h1, getElementById_lt d _ _ h2, getElementById_lt d _ _ h3]

theorem toggleSubmenu_found (d : Document) (id : String) (i : Nat)
    (hget : getElementById d id = some i) :
    toggleSubmenu id d = .normal ()
      (if d.hasClassAt i "show" = true then d.hideSubmenus
       else d.hideSubmenus.update i (Element.addClass "show")) := by
  cases hs : d.hasClassAt i "show" <;> simp [toggleSubmenu, hget, hs]

theorem toggleSubmenu_missing (d : Document) (id : String)
    (hget : getElementById d id = none) : toggleSubmenu id d = .normal () d := by
  simp [toggleSubmenu, hget]

theorem closeMenu_attached_clears (h n o : Nat) (d : Document) :
    ∃ d1, closeMenu ⟨some h, some n, some o⟩ d = .normal () d1 ∧ shownSubmenus d1 = [] ∧
      ∀ j, d1.hasClassAt j "navbar-submenu" = true → d1.hasClassAt j "show" = false := by
  refine ⟨_, by simp [closeMenu]; rfl, ?_, ?_⟩
  · apply shownSubmenus_eq_nil
    intro j
    cases h1 : d.hasClassAt j "navbar-submenu" <;> simp [Document.shownAt, h1]
  · intro j
    cases h1 : d.hasClassAt j "navbar-submenu" <;> simp [h1]

theorem shownSubmenus_toggle_hidden (d : Document) (i : Nat) (hi : i < d.elements.length)
    (hsub : d.hasClassAt i "navbar-submenu" = true) :
    shownSubmenus (d.hideSubmenus.update i (Element.addClass "show")) = [i] := by
  apply shownSubmenus_eq_singleton
  · simp [Document.shownAt, hsub, hi]
  · intro j hj
    cases h1 : d.hasClassAt j "navbar-submenu" <;> simp [Document.shownAt, h1, hj]

theorem toggleSubmenu_shows (d : Document) (B : String) (b : Nat)
    (hget : getElementById d B = some b) (hsub : d.hasClassAt b "navbar-submenu" = true)
    (hnot : d.hasClassAt b "show" = false) (hb : b < d.elements.length) :
    ∃ d2, toggleSubmenu B d = .normal () d2 ∧ shownSubmenus d2 = [b] := by
  refine ⟨_, toggleSubmenu_found d B b hget, ?_⟩
  rw [if_neg (by simp [hnot])]
  exact shownSubmenus_toggle_hidden d b hb hsub

theorem toggleSubmenu_hides (d : Document) (A : String) (a : Nat)
    (hget : getElementById d A = some a) (hshow : d.hasClassAt a "show" = true) :
    ∃ d2, toggleSubmenu A d = .normal () d2 ∧ shownSubmenus d2 = [] := by
  refine ⟨_, toggleSubmenu_found d A a hget, ?_⟩
  rw [if_pos hshow]
  exact shownSubmenus_hideSubmenus d

theorem openMenu_result (h n o : Nat) (d : Document)
    (hh : h < d.elements.length) (hn : n < d.elements.length) (ho : o < d.elements.length) :
    ∃ d1, openMenu ⟨some h, some n, some o⟩ d = .normal () d1 ∧
      d1.elements.length = d.elements.length ∧
      d1.hasClassAt h "active" = true ∧ d1.hasClassAt n "active" = true ∧
      d1.hasClassAt o "active" = true ∧ d1.bodyOverflow = "hidden" := by
  simp [openMenu, hh, hn, ho]

theorem closeMenu_result (h n o : Nat) (d : Document) :
    ∃ d1, closeMenu ⟨some h, some n, some o⟩ d = .normal () d1 ∧
      d1.elements.length = d.elements.length ∧
      d1.hasClassAt h "active" = false ∧ d1.hasClassAt n "active" = false ∧
      d1.hasClassAt o "active" = false ∧ d1.bodyOverflow = "" := by
  simp [closeMenu]

/-! ## Lemmas: steps that show no further submenu -/

theorem NonIncreasing.bind {α β : Type} (x : Js α) (f : α → Js β)
    (hx : NonIncreasing x) (hf : ∀ a, NonIncreasing (f a)) : NonIncreasing (x >>= f) := by
  intro d
  have h1 := hx d
  rw [bind_run]
  cases hxd : x d with
  | normal a d1 =>
    rw [hxd] at h1
    exact le_trans (hf a d1) h1
  | abrupt d1 =>
    rw [hxd] at h1
    exact h1

theorem NonIncreasing.pure {α : Type} (a : α) : NonIncreasing (pure a : Js α) :=
  fun _ => le_refl _

theorem NonIncreasing.update (i : Nat) (f : Element → Element)
    (hf : ∀ e, (f e).isShownSubmenu = true → e.isShownSubmenu = true) :
    NonIncreasing (modifyDoc (fun d => d.update i f)) := by
  intro d
  show (shownSubmenus (d.update i f)).length ≤ _
  simp only [shownSubmenus, length_indicesWhere, Document.update]
  exact countP_updateAt_le _ f hf d.elements i

theorem nonIncreasing_addActive (r : Ref) : NonIncreasing (classListAdd r "active") := by
  cases r with
  | none => exact fun _ => le_refl _
  | some i =>
    apply NonIncreasing.update
    intro e
    simp [Element.isShownSubmenu]

theorem nonIncreasing_remove (r : Ref) (k : String) : NonIncreasing (classListRemove r k) := by
  cases r with
  | none => exact fun _ => le_refl _
  | some i =>
    apply NonIncreasing.update
    intro e
    simp only [Element.isShownSubmenu, hasClass_removeClass, Bool.and_eq_true]
    intro hx
    exact ⟨hx.1.1, hx.2.1⟩

theorem nonIncreasing_setAttribute (r : Ref) (a v : String) :
    NonIncreasing (setAttribute r a v) := by
  cases r with
  | none => exact fun _ => le_refl _
  | some i =>
    apply NonIncreasing.update
    intro e
    simp [Element.isShownSubmenu]

theorem nonIncreasing_setBodyOverflow (v : String) : NonIncreasing (setBodyOverflow v) :=
  fun _ => le_refl _

theorem nonIncreasing_closeAllSubmenus : NonIncreasing closeAllSubmenus := by
  intro d
  show (shownSubmenus d.hideSubmenus).length ≤ _
  simp [shownSubmenus_hideSubmenus]

theorem nonIncreasing_contains (r : Ref) (k : String) :
    NonIncreasing (classListContains r k) := by
  cases r with
  | none => exact fun _ => le_refl _
  | some i => exact fun _ => le_refl _

theorem openMenu_nonIncreasing (c : Controller) : NonIncreasing (openMenu c) := by
  unfold openMenu
  refine NonIncreasing.bind _ _ (nonIncreasing_addActive _) (fun _ => ?_)
  refine NonIncreasing.bind _ _ (nonIncreasing_addActive _) (fun _ => ?_)
  refine NonIncreasing.bind _ _ (nonIncreasing_addActive _) (fun _ => ?_)
  refine NonIncreasing.bind _ _ (nonIncreasing_setBodyOverflow _) (fun _ => ?_)
  refine NonIncreasing.bind _ _ (nonIncreasing_setAttribute _ _ _) (fun _ => ?_)
  exact nonIncreasing_setAttribute _ _ _

theorem closeMenu_nonIncreasing (c : Controller) : NonIncreasing (closeMenu c) := by
  unfold closeMenu
  refine NonIncreasing.bind _ _ (nonIncreasing_remove _ _) (fun _ => ?_)
  refine NonIncreasing.bind _ _ (nonIncreasing_remove _ _) (fun _ => ?_)
  refine NonIncreasing.bind _ _ (nonIncreasing_remove _ _) (fun _ => ?_)
  refine NonIncreasing.bind _ _ (nonIncreasing_setBodyOverflow _) (fun _ => ?_)
  refine NonIncreasing.bind _ _ nonIncreasing_closeAllSubmenus (fun _ => ?_)
  refine NonIncreasing.bind _ _ (nonIncreasing_setAttribute _ _ _) (fun _ => ?_)
  exact nonIncreasing_setAttribute _ _ _

theorem toggleMenu_nonIncreasing (c : Controller) : NonIncreasing (toggleMenu c) := by
  unfold toggleMenu
  refine NonIncreasing.bind _ _ (nonIncreasing_contains _ _) (fun isActive => ?_)
  cases isActive
  · exact openMenu_nonIncreasing c
  · exact closeMenu_nonIncreasing c

theorem mouseLeave_nonIncreasing (w : Int) (submenu : Nat) :
    NonIncreasing (mouseLeave w submenu) := by
  unfold mouseLeave
  cases isMobileView w
  · simpa using nonIncreasing_remove (some submenu) "show"
  · simpa using @NonIncreasing.pure Unit ()

theorem scrollAction_nonIncreasing (w : Int) : NonIncreasing (scrollAction w) := by
  unfold scrollAction
  cases isMobileView w
  · simpa using nonIncreasing_closeAllSubmenus
  · simpa using @NonIncreasing.pure Unit ()

theorem length_shownSubmenus_show_le (d : Document) (i : Nat) :
    (shownSubmenus (d.hideSubmenus.update i (Element.addClass "show"))).length ≤ 1 := by
  have h0 : (shownSubmenus d.hideSubmenus).length = 0 := by simp [shownSubmenus_hideSubmenus]
  simp only [shownSubmenus, length_indicesWhere, Document.update] at h0 ⊢
  have := countP_updateAt_le_succ Element.isShownSubmenu (Element.addClass "show")
    d.hideSubmenus.elements i
  omega

theorem toggleSubmenu_atMostOne (id : String) (d : Document)
    (h : (shownSubmenus d).length ≤ 1) :
    (shownSubmenus (toggleSubmenu id d).doc).length ≤ 1 := by
  cases hget : getElementById d id with
  | none => rw [toggleSubmenu_missing d id hget]; exact h
  | some i =>
    rw [toggleSubmenu_found d id i hget]
    show (shownSubmenus (if _ then _ else _)).length ≤ 1
    split
    · simp [shownSubmenus_hideSubmenus]
    · exact length_shownSubmenus_show_le d i

theorem mouseEnter_atMostOne (w : Int) (submenu : Nat) (d : Document)
    (h : (shownSubmenus d).length ≤ 1) :
    (shownSubmenus (mouseEnter w submenu d).doc).length ≤ 1 := by
  unfold mouseEnter
  cases isMobileView w
  · simpa using length_shownSubmenus_show_le d submenu
  · simpa using h

/-! ## Theorems: navigation controller -/

/-- With the overlay present as well: from a state where nav-list is not
`active`, aria-expanded is `false` and aria-hidden is `true`, every finite
sequence of openMenu, closeMenu and toggleMenu calls completes normally and
ends in a state where aria-expanded is `true` exactly when nav-list is
`active` and aria-hidden is `true` exactly when it is not. -/
theorem aria_mirrors_with_overlay (c : Controller) (d0 : Document) (h n o : Nat)
    (hBtn : c.hamburgerBtn = some h) (hList : c.navList = some n)
    (hOverlay : c.navOverlay = some o)
    (hExpanded : d0.attrAt h "aria-expanded" = some "false")
    (hHidden : d0.attrAt n "aria-hidden" = some "true")
    (hClosed : d0.hasClassAt n "active" = false)
    (calls : List MenuCall) :
    ∃ d, runCalls c calls d0 = .normal () d ∧
      (d.attrAt h "aria-expanded" = some "true" ↔ d.hasClassAt n "active" = true) ∧
      (d.attrAt n "aria-hidden" = some "true" ↔ d.hasClassAt n "active" = false) := by
  obtain ⟨rb, rl, ro⟩ := c
  simp only at hBtn hList hOverlay
  subst hBtn hList hOverlay
  obtain ⟨d, hrun, hinv⟩ := runCalls_keeps h n o calls d0
    (attrAt_lt d0 h _ _ hExpanded) (attrAt_lt d0 n _ _ hHidden)
    (Or.inr ⟨hExpanded, hHidden, hClosed⟩)
  refine ⟨d, hrun, ?_⟩
  rcases hinv with ⟨h1, h2, h3⟩ | ⟨h1, h2, h3⟩ <;> simp [h1, h2, h3]

/-- With the button, the list and the overlay present: whatever the menu state
and whichever elements carry `show`, closeMenu completes normally and leaves
no submenu shown; this holds in particular after toggleSubmenu has shown the
submenu with a given id, which is then no longer shown. -/
theorem closeMenu_clears_when_attached (c : Controller) (d : Document)
    (hc : c.attached d = true) :
    (∃ d1, closeMenu c d = .normal () d1 ∧ shownSubmenus d1 = []) ∧
    (∀ id i, d.submenuWithId id = some i → d.hasClassAt i "show" = false →
      ∃ d1 d2, toggleSubmenu id d = .normal () d1 ∧ shownSubmenus d1 = [i] ∧
        closeMenu c d1 = .normal () d2 ∧ shownSubmenus d2 = [] ∧
        d2.hasClassAt i "show" = false) := by
  obtain ⟨h, n, o, rfl, hh, hn, ho⟩ := attached_spec c d hc
  constructor
  · obtain ⟨d1, h1, h2, _⟩ := closeMenu_attached_clears h n o d
    exact ⟨d1, h1, h2⟩
  · intro id i hid hshow
    obtain ⟨hget, hsub⟩ := submenuWithId_spec d id i hid
    have hi := getElementById_lt d id i hget
    obtain ⟨d2, h1, h2, h3⟩ := closeMenu_attached_clears h n o
      (d.hideSubmenus.update i (Element.addClass "show"))
    refine ⟨_, d2, ?_, shownSubmenus_toggle_hidden d i hi hsub, h1, h2, ?_⟩
    · rw [toggleSubmenu_found d id i hget]; simp [hshow]
    · apply h3
      have hc1 := congrArg Completion.doc h1
      simp [closeMenu, Completion.doc] at hc1
      rw [← hc1]
      simp [hsub]

/-- C3. For a submenu id A: toggleSubmenu(A) followed by toggleSubmenu(B), B
being another submenu id, leaves the submenu B shown and no other; and when A
is not shown beforehand, toggleSubmenu(A) twice leaves no submenu shown. -/
theorem toggleSubmenu_twice (d : Document) (A : String) (a : Nat)
    (hA : d.submenuWithId A = some a) :
    (∀ B b, d.submenuWithId B = some b → A ≠ B →
      ∃ d1 d2, toggleSubmenu A d = .normal () d1 ∧ toggleSubmenu B d1 = .normal () d2 ∧
        shownSubmenus d2 = [b]) ∧
    (d.hasClassAt a "show" = false →
      ∃ d1 d2, toggleSubmenu A d = .normal () d1 ∧ toggleSubmenu A d1 = .normal () d2 ∧
        shownSubmenus d2 = []) := by
  obtain ⟨hgetA, hsubA⟩ := submenuWithId_spec d A a hA
  have ha := getElementById_lt d A a hgetA
  have h1 := toggleSubmenu_found d A a hgetA
  constructor
  · intro B b hB hAB
    obtain ⟨hgetB, hsubB⟩ := submenuWithId_spec d B b hB
    have hb := getElementById_lt d B b hgetB
    have hab := getElementById_ne d A B a b hgetA hgetB hAB
    have hba : b ≠ a := fun h => hab h.symm
    cases hs : d.hasClassAt a "show"
    · simp only [hs, Bool.false_eq_true, if_false] at h1
      obtain ⟨d2, h2, h3⟩ := toggleSubmenu_shows (d.hideSubmenus.update a (Element.addClass "show"))
        B b (by simp [hgetB]) (by simp [hsubB]) (by simp [hsubB, hba]) (by simp [hb])
      exact ⟨_, d2, h1, h2, h3⟩
    · simp only [hs, if_true] at h1
      obtain ⟨d2, h2, h3⟩ := toggleSubmenu_shows d.hideSubmenus
        B b (by simp [hgetB]) (by simp [hsubB]) (by simp [hsubB]) (by simp [hb])
      exact ⟨_, d2, h1, h2, h3⟩
  · intro hshow
    simp only [hshow, Bool.false_eq_true, if_false] at h1
    obtain ⟨d2, h2, h3⟩ := toggleSubmenu_hides (d.hideSubmenus.update a (Element.addClass "show"))
      A a (by simp [hgetA]) (by simp [hshow, ha])
    exact ⟨_, d2, h1, h2, h3⟩
/-- C8. With the button, the list and the overlay present: in a Closed state
toggleMenu does what openMenu does, which leaves the menu open, `active` on
all three elements and the body overflow `hidden`; in an Open state it does
what closeMenu does, which leaves the menu closed, `active` on none of the
three and the body overflow empty; and from Closed a hamburger click followed
by an Escape keypress passes through Open with overflow `hidden` and ends
Closed with overflow empty. -/
theorem toggleMenu_transitions (c : Controller) (d : Document) (hc : c.attached d = true) :
    (menuOpen c d = false →
      toggleMenu c d = openMenu c d ∧
      ∃ d1, openMenu c d = .normal () d1 ∧ menuOpen c d1 = true ∧
        activeFlags c d1 = [true, true, true] ∧ d1.bodyOverflow = "hidden") ∧
    (menuOpen c d = true →
      toggleMenu c d = closeMenu c d ∧
      ∃ d1, closeMenu c d = .normal () d1 ∧ menuOpen c d1 = false ∧
        activeFlags c d1 = [false, false, false] ∧ d1.bodyOverflow = "") ∧
    (menuOpen c d = false →
      ∃ d1 d2, hamburgerClick c d = .normal () d1 ∧ menuOpen c d1 = true ∧
        d1.bodyOverflow = "hidden" ∧
        documentKeydown c "Escape" d1 = .normal () d2 ∧ menuOpen c d2 = false ∧
        d2.bodyOverflow = "") := by
  obtain ⟨h, n, o, rfl, hh, hn, ho⟩ := attached_spec c d hc
  have htoggle := toggleMenu_eq ⟨some h, some n, some o⟩ n rfl d
  obtain ⟨d1, hopen, hlen1, hb1, hn1, ho1, hov1⟩ := openMenu_result h n o d hh hn ho
  obtain ⟨d1c, hclose, _, hb1c, hn1c, ho1c, hov1c⟩ := closeMenu_result h n o d
  obtain ⟨d2, hclose2, _, hb2, hn2, ho2, hov2⟩ := closeMenu_result h n o d1
  refine ⟨?_, ?_, ?_⟩
  · intro hm
    have hm1 : d.hasClassAt n "active" = false := hm
    refine ⟨by rw [htoggle, if_neg (by simp [hm1])], d1, hopen, hn1, ?_, hov1⟩
    simp [activeFlags, hb1, hn1, ho1]
  · intro hm
    have hm1 : d.hasClassAt n "active" = true := hm
    refine ⟨by rw [htoggle, if_pos hm1], d1c, hclose, hn1c, ?_, hov1c⟩
    simp [activeFlags, hb1c, hn1c, ho1c]
  · intro hm
    have hm1 : d.hasClassAt n "active" = false := hm
    refine ⟨d1, d2, ?_, hn1, hov1, ?_, hn2, hov2⟩
    · show toggleMenu _ d = _
      rw [htoggle, if_neg (by simp [hm1]), hopen]
    · simp [documentKeydown, hn1, hclose2]

/-- C9. For every integer width w, isMobileView is true exactly when
w <= 768; the resize action is closeMenu when w > 768, and when w <= 768 it
completes normally with the document unchanged. -/
theorem resize_breakpoint (c : Controller) (w : Int) (d : Document) :
    (isMobileView w = true ↔ w ≤ 768) ∧
    (768 < w → resizeAction c w d = closeMenu c d) ∧
    (w ≤ 768 → resizeAction c w d = .normal () d) := by
  refine ⟨by simp [isMobileView], ?_, ?_⟩
  · intro hw
    have : isMobileView w = false := by simp [isMobileView, hw]
    simp [resizeAction, this]
  · intro hw
    have : isMobileView w = true := by simp [isMobileView, hw]
    simp [resizeAction, this]

/-- C7. From a state in which at most one submenu is shown, every transition
(toggleSubmenu for any id, closeMenu, openMenu, toggleMenu, hover enter,
hover leave, the scroll action; at any width and whether or not it completes
normally) leaves a state in which at most one submenu is shown. -/
theorem at_most_one_submenu_shown (c : Controller) (t : Transition) (d : Document)
    (h : (shownSubmenus d).length ≤ 1) :
    (shownSubmenus (t.run c d).doc).length ≤ 1 := by
  cases t with
  | toggleSubmenu id => exact toggleSubmenu_atMostOne id d h
  | closeMenu => exact le_trans (closeMenu_nonIncreasing c d) h
  | openMenu => exact le_trans (openMenu_nonIncreasing c d) h
  | toggleMenu => exact le_trans (toggleMenu_nonIncreasing c d) h
  | mouseEnter w submenu => exact mouseEnter_atMostOne w submenu d h
  | mouseLeave w submenu => exact le_trans (mouseLeave_nonIncreasing w submenu d) h
  | scrollAction w => exact le_trans (scrollAction_nonIncreasing w d) h

/-! ## Lemmas: splitting and trimming -/

theorem splitOn_ne_nil (sep : Char) (s : List Char) : splitOn sep s ≠ [] := by
  induction s with
  | nil => simp [splitOn]
  | cons c cs ih =>
    unfold splitOn
    split
    · simp
    · split <;> simp

theorem splitOn_not_mem (sep : Char) (s : List Char) (h : sep ∉ s) : splitOn sep s = [s] := by
  induction s with
  | nil => rfl
  | cons c cs ih =>
    have hc : c ≠ sep := fun e => h (by simp [e])
    have hcs : sep ∉ cs := fun e => h (by simp [e])
    simp [splitOn, hc, ih hcs]

theorem splitOn_append (sep : Char) (s t : List Char) (h : sep ∉ s) :
    splitOn sep (s ++ sep :: t) = s :: splitOn sep t := by
  induction s with
  | nil => simp [splitOn]
  | cons c cs ih =>
    have hc : c ≠ sep := fun e => h (by simp [e])
    have hcs : sep ∉ cs := fun e => h (by simp [e])
    simp [splitOn, hc, ih hcs]

theorem splitOn_head (sep : Char) (s : List Char) :
    ∃ p ps, splitOn sep s = p :: ps ∧ (sep ∉ s → p = s) := by
  cases hs : splitOn sep s with
  | nil => exact absurd hs (splitOn_ne_nil sep s)
  | cons p ps =>
    refine ⟨p, ps, rfl, fun h => ?_⟩
    rw [splitOn_not_mem sep s h] at hs
    cases hs
    rfl

theorem dropWhile_of_none (p : Char → Bool) (s : List Char) (h : ∀ x ∈ s, p x = false) :
    s.dropWhile p = s := by
  cases s with
  | nil => rfl
  | cons c cs => simp [List.dropWhile, h c (by simp)]

theorem trim_of_no_space (s : List Char) (h : ∀ x ∈ s, isWhiteSpace x = false) : trim s = s := by
  unfold trim
  rw [dropWhile_of_none _ s h, dropWhile_of_none _ s.reverse (by simpa using h)]
  simp

theorem trim_space_cons (s : List Char) : trim (Char.ofNat 32 :: s) = trim s := by
  have : isWhiteSpace (Char.ofNat 32) = true := by decide
  simp [trim, List.dropWhile, this]

/-! ## Lemmas: the cookie string -/

theorem wellFormed_spec (c : Cookie) (h : c.wellFormed = true) :
    (∀ x ∈ c.name.toList, x ≠ ';' ∧ x ≠ '=' ∧ isWhiteSpace x = false) ∧
    (∀ x ∈ c.value.toList, x ≠ ';' ∧ isWhiteSpace x = false) := by
  simp only [Cookie.wellFormed, Bool.and_eq_true, List.all_eq_true] at h
  constructor
  · intro x hx
    have := h.1 x hx
    simp only [Bool.and_eq_true, bne_iff_ne, ne_eq, Bool.not_eq_true'] at this
    exact ⟨this.1.1, this.1.2, this.2⟩
  · intro x hx
    have := h.2 x hx
    simp only [Bool.and_eq_true, bne_iff_ne, ne_eq, Bool.not_eq_true'] at this
    exact this

theorem cookiePair_no_semicolon (c : Cookie) (h : c.wellFormed = true) : ';' ∉ cookiePair c := by
  obtain ⟨h1, h2⟩ := wellFormed_spec c h
  intro hmem
  simp only [cookiePair, List.mem_append, List.mem_cons] at hmem
  rcases hmem with hm | hm | hm
  · exact (h1 _ hm).1 rfl
  · exact absurd hm (by decide)
  · exact (h2 _ hm).1 rfl

theorem cookiePair_no_space (c : Cookie) (h : c.wellFormed = true) :
    ∀ x ∈ cookiePair c, isWhiteSpace x = false := by
  obtain ⟨h1, h2⟩ := wellFormed_spec c h
  intro x hmem
  simp only [cookiePair, List.mem_append, List.mem_cons] at hmem
  rcases hmem with hm | hm | hm
  · exact (h1 _ hm).2.2
  · subst hm; decide
  · exact (h2 _ hm).2

theorem splitOn_cookieChars (cs : List Cookie) (c : Cookie) (pre : List Char)
    (hpre : ';' ∉ pre) (hwf : ∀ x ∈ c :: cs, x.wellFormed = true) :
    splitOn ';' (pre ++ cookieChars (c :: cs)) =
      (pre ++ cookiePair c) :: cs.map (fun x => Char.ofNat 32 :: cookiePair x) := by
  induction cs generalizing c pre with
  | nil =>
    have hc := cookiePair_no_semicolon c (hwf c (by simp))
    simp only [cookieChars, List.map_nil]
    apply splitOn_not_mem
    simp [hpre, hc]
  | cons c2 cs ih =>
    have hc := cookiePair_no_semicolon c (hwf c (by simp))
    have hrest := ih c2 [Char.ofNat 32] (by decide) (fun x hx => hwf x (by simp at hx ⊢; tauto))
    have heq : pre ++ cookieChars (c :: c2 :: cs) =
        (pre ++ cookiePair c) ++ ';' :: ([Char.ofNat 32] ++ cookieChars (c2 :: cs)) := by
      simp [cookieChars]
    rw [heq, splitOn_append _ _ _ (by simp [hpre, hc]), hrest]
    simp

theorem scanCookies_pairs (cookies : List Cookie) (segs : List (List Char))
    (hseg : segs.map trim = cookies.map cookiePair)
    (hwf : ∀ x ∈ cookies, x.wellFormed = true) :
    (cookieValue "csrftoken" cookies = none → scanCookies segs = none) ∧
    (∀ V, cookieValue "csrftoken" cookies = some V → '=' ∉ V.toList →
      scanCookies segs = some (.str V)) := by
  induction cookies generalizing segs with
  | nil =>
    cases segs with
    | nil => simp [cookieValue, scanCookies]
    | cons s ss => simp at hseg
  | cons c cs ih =>
    cases segs with
    | nil => simp at hseg
    | cons s ss =>
      simp only [List.map_cons, List.cons.injEq] at hseg
      obtain ⟨hs, hss⟩ := hseg
      obtain ⟨hnone, hsome⟩ := ih ss hss (fun x hx => hwf x (by simp [hx]))
      obtain ⟨h1, _⟩ := wellFormed_spec c (hwf c (by simp))
      have hname : '=' ∉ c.name.toList := fun hm => (h1 _ hm).2.1 rfl
      obtain ⟨p, ps, hp, hpv⟩ := splitOn_head '=' c.value.toList
      have hsplit : splitOn '=' (trim s) = c.name.toList :: p :: ps := by
        rw [hs, cookiePair, splitOn_append _ _ _ hname, hp]
      have hiff : (c.name.toList = "csrftoken".toList) ↔ c.name = "csrftoken" := by
        constructor
        · intro h; exact String.ext h
        · intro h; rw [h]
      by_cases hn : c.name = "csrftoken"
      · have hn1 : c.name.toList = "csrftoken".toList := hiff.2 hn
        constructor
        · intro h; simp [cookieValue, hn] at h
        · intro V hV hVeq
          simp only [cookieValue, hn, if_true, Option.some.injEq] at hV
          subst hV
          have hpe := hpv hVeq
          subst hpe
          simp only [scanCookies, hsplit, hn1, if_true]
          rfl
      · have hn1 : ¬ c.name.toList = "csrftoken".toList := fun h => hn (hiff.1 h)
        have hscan : scanCookies (s :: ss) = scanCookies ss := by
          simp only [scanCookies, hsplit, hn1, if_false]
        rw [hscan]
        constructor
        · intro h; simp only [cookieValue, hn, if_false] at h; exact hnone h
        · intro V hV hVeq
          simp only [cookieValue, hn, if_false] at hV
          exact hsome V hV hVeq

theorem scanCookies_documentCookie (cookies : List Cookie)
    (hwf : ∀ x ∈ cookies, x.wellFormed = true) :
    (cookieValue "csrftoken" cookies = none →
      scanCookies (splitOn ';' (documentCookie cookies).toList) = none) ∧
    (∀ V, cookieValue "csrftoken" cookies = some V → '=' ∉ V.toList →
      scanCookies (splitOn ';' (documentCookie cookies).toList) = some (.str V)) := by
  cases cookies with
  | nil =>
    constructor
    · intro _; rfl
    · intro V hV; simp [cookieValue] at hV
  | cons c cs =>
    have hsplit := splitOn_cookieChars cs c [] (by simp) hwf
    simp only [List.nil_append] at hsplit
    show (_ → scanCookies (splitOn ';' (cookieChars (c :: cs))) = none) ∧
      (∀ V, _ → _ → scanCookies (splitOn ';' (cookieChars (c :: cs))) = some (.str V))
    rw [hsplit]
    apply scanCookies_pairs (c :: cs) _ _ hwf
    simp only [List.map_cons, List.map_map, List.cons.injEq]
    refine ⟨trim_of_no_space _ (cookiePair_no_space c (hwf c (by simp))), ?_⟩
    apply List.map_congr_left
    intro x hx
    simp only [Function.comp, trim_space_cons]
    exact trim_of_no_space _ (cookiePair_no_space x (hwf x (by simp [hx])))

/-! ## Theorems: logger -/

/-- C4. One call of logToBackend makes no request when the level is `debug`
and the host is not `localhost`, and otherwise exactly one, a POST to
`/api/log-error/`; so Logger.info, Logger.warning and Logger.error make
exactly one request on every host, and Logger.debug makes one on `localhost`
and none elsewhere. -/
theorem logToBackend_request_count (b : Browser) (level message : String)
    (context : JsObject) (ctx : Option JsObject) :
    (level = "debug" ∧ b.hostname ≠ "localhost" → logToBackend b level message context = []) ∧
    (¬ (level = "debug" ∧ b.hostname ≠ "localhost") →
      ∃ r, logToBackend b level message context = [r] ∧ r.method = "POST" ∧
        r.url = "/api/log-error/" ∧ r.body.level = level) ∧
    (Logger.info b message ctx).length = 1 ∧
    (Logger.warning b message ctx).length = 1 ∧
    (Logger.error b message ctx).length = 1 ∧
    (Logger.debug b message ctx).length = if b.hostname = "localhost" then 1 else 0 := by
  refine ⟨?_, ?_, ?_, ?_, ?_, ?_⟩
  · intro h
    simp [logToBackend, LogLevel.DEBUG, h]
  · intro h
    refine ⟨_, by rw [logToBackend, LogLevel.DEBUG, if_neg h], rfl, rfl, rfl⟩
  · simp [Logger.info, logToBackend, LogLevel.INFO, LogLevel.DEBUG]
  · simp [Logger.warning, logToBackend, LogLevel.WARNING, LogLevel.DEBUG]
  · simp [Logger.error, logToBackend, LogLevel.ERROR, LogLevel.DEBUG]
  · by_cases hh : b.hostname = "localhost" <;>
      simp [Logger.debug, logToBackend, LogLevel.DEBUG, hh]

/-- C10. On every host each of Logger.userAction, Logger.formValidation and
Logger.fileUpload makes exactly one request: userAction at level `info`;
formValidation at `info` when isValid is truthy and `warning` otherwise;
fileUpload at `info` when success (`true` when the argument is omitted) is
truthy and `error` otherwise. -/
theorem semantic_helpers_levels (b : Browser) (name : String) (details errors : Option JsObject)
    (isValid fileSize success error : JsVal) :
    (∃ r, Logger.userAction b name details = [r] ∧ r.body.level = "info") ∧
    (∃ r, Logger.formValidation b name isValid errors = [r] ∧
      r.body.level = if isValid.truthy = true then "info" else "warning") ∧
    (∃ r, Logger.fileUpload b name fileSize success error = [r] ∧
      r.body.level = if (success.orDefault (.bool true)).truthy = true then "info" else "error") := by
  refine ⟨?_, ?_, ?_⟩
  · refine ⟨_, by rw [Logger.userAction, logToBackend, if_neg (by simp [LogLevel.INFO, LogLevel.DEBUG])], rfl⟩
  · by_cases hv : isValid.truthy = true
    · refine ⟨_, by simp only [Logger.formValidation, hv, if_true]; rw [logToBackend, if_neg (by simp [LogLevel.INFO, LogLevel.DEBUG])], ?_⟩
      simp [hv, LogLevel.INFO]
    · refine ⟨_, by simp only [Logger.formValidation, hv, if_false]; rw [logToBackend, if_neg (by simp [LogLevel.WARNING, LogLevel.DEBUG])], ?_⟩
      simp [hv, LogLevel.WARNING]
  · by_cases hv : (success.orDefault (.bool true)).truthy = true
    · refine ⟨_, by simp only [Logger.fileUpload, hv, if_true]; rw [logToBackend, if_neg (by simp [LogLevel.INFO, LogLevel.DEBUG])], ?_⟩
      simp [hv, LogLevel.INFO]
    · refine ⟨_, by simp only [Logger.fileUpload, hv, if_false]; rw [logToBackend, if_neg (by simp [LogLevel.ERROR, LogLevel.DEBUG])], ?_⟩
      simp [hv, LogLevel.ERROR]

/-- C5 (as amended). When `document.cookie` holds well-formed cookies: if the
first cookie named `csrftoken` has a value V without an equals sign,
getCsrfToken returns V; if no cookie is named `csrftoken`, it returns the
content of the csrf-token meta tag when there is one, and the empty string
when there is no such tag. -/
theorem getCsrfToken_sources (b : Browser) (cookies : List Cookie)
    (hwf : ∀ x ∈ cookies, x.wellFormed = true) (hb : b.cookie = documentCookie cookies) :
    (∀ V, cookieValue "csrftoken" cookies = some V → '=' ∉ V.toList →
      getCsrfToken b = .str V) ∧
    (cookieValue "csrftoken" cookies = none →
      (∀ C, b.csrfMeta = some (some C) → getCsrfToken b = .str C) ∧
      (b.csrfMeta = none → getCsrfToken b = .str "")) := by
  obtain ⟨hnone, hsome⟩ := scanCookies_documentCookie cookies hwf
  constructor
  · intro V hV hVeq
    simp only [getCsrfToken, hb, hsome V hV hVeq]
  · intro hno
    constructor
    · intro C hC
      simp only [getCsrfToken, hb, hnone hno, hC]
    · intro hC
      simp only [getCsrfToken, hb, hnone hno, hC]

/-! ## Initialisation and absent elements -/

theorem initAccessibility_initial (page : Document) (h n : Nat)
    (hb : getElementById page "hamburger-btn" = some h)
    (hl : getElementById page "nav-list" = some n) :
    ∃ d0, initAccessibility (Controller.capture page) page = .normal () d0 ∧
      d0.attrAt h "aria-expanded" = some "false" ∧ d0.attrAt n "aria-hidden" = some "true" ∧
      d0.hasClassAt n "active" = page.hasClassAt n "active" := by
  have hh := getElementById_lt page _ h hb
  have hn := getElementById_lt page _ n hl
  simp [initAccessibility, Controller.capture, hb, hl, hh, hn]

theorem documentKeydown_without_list (c : Controller) (d : Document) (hl : c.navList = none) :
    documentKeydown c "Escape" d = .abrupt d := by
  simp [documentKeydown, hl]

theorem closeMenu_without_button (c : Controller) (d : Document) (hb : c.hamburgerBtn = none) :
    closeMenu c d = .abrupt d := by
  simp [closeMenu, hb]

/-- C6. Where the claim fails: on pages lacking one of the three elements the
`DOMContentLoaded` callback still completes, but the Escape keydown listener,
the click-outside listener and the in-page anchor listener raise a TypeError
when nav-list is absent, the desktop resize action raises one when the
overlay is absent, and closeNavigation raises one when the button is absent. -/
theorem missing_element_raises :
    (initAccessibility (Controller.capture pageWithoutList) pageWithoutList).threw = false ∧
    (documentKeydown (Controller.capture pageWithoutList) "Escape"
      (loaded pageWithoutList)).threw = true ∧
    (documentClick (Controller.capture pageWithoutList) 500 false false
      (loaded pageWithoutList)).threw = true ∧
    (anchorClick (Controller.capture pageWithoutList) 500 (some 0)
      (loaded pageWithoutList)).threw = true ∧
    (resizeAction (Controller.capture pageWithoutOverlay) 1024
      (loaded pageWithoutOverlay)).threw = true ∧
    (closeNavigation (some (Controller.capture pageWithoutButton))
      (loaded pageWithoutButton)).threw = true := by
  decide

/-- C1. Where the claim fails: on a loaded page that has the button and the
menu list but no overlay, the initial state is as the claim describes
(nav-list not `active`, aria-expanded `false`, aria-hidden `true`), yet a
single openMenu call raises a TypeError after nav-list has become `active`
and before the attributes are written, so nav-list is `active` while
aria-expanded is still `false` and aria-hidden still `true`. -/
theorem aria_mirror_broken_without_overlay :
    (Controller.capture pageWithoutOverlay).hamburgerBtn = some 0 ∧
    (Controller.capture pageWithoutOverlay).navList = some 1 ∧
    (Controller.capture pageWithoutOverlay).navOverlay = none ∧
    (initAccessibility (Controller.capture pageWithoutOverlay) pageWithoutOverlay).threw = false ∧
    (loaded pageWithoutOverlay).hasClassAt 1 "active" = false ∧
    (loaded pageWithoutOverlay).attrAt 0 "aria-expanded" = some "false" ∧
    (loaded pageWithoutOverlay).attrAt 1 "aria-hidden" = some "true" ∧
    (runCalls (Controller.capture pageWithoutOverlay) [.openMenu]
      (loaded pageWithoutOverlay)).threw = true ∧
    (runCalls (Controller.capture pageWithoutOverlay) [.openMenu]
      (loaded pageWithoutOverlay)).doc.hasClassAt 1 "active" = true ∧
    (runCalls (Controller.capture pageWithoutOverlay) [.openMenu]
      (loaded pageWithoutOverlay)).doc.attrAt 0 "aria-expanded" = some "false" ∧
    (runCalls (Controller.capture pageWithoutOverlay) [.openMenu]
      (loaded pageWithoutOverlay)).doc.attrAt 1 "aria-hidden" = some "true" := by
  decide

/-- C2. Where the claim fails: on a loaded page that has the button, the menu
list and the submenu `sub1` but no overlay, toggleSubmenu shows `sub1`; then
closeMenu raises a TypeError at the overlay, before closeAllSubmenus is
reached, and `sub1` is still shown. -/
theorem closeMenu_leaves_submenu_without_overlay :
    (Controller.capture pageWithoutOverlaySubmenu).navOverlay = none ∧
    shownSubmenus (toggleSubmenu "sub1" (loaded pageWithoutOverlaySubmenu)).doc = [2] ∧
    (closeMenu (Controller.capture pageWithoutOverlaySubmenu)
      (toggleSubmenu "sub1" (loaded pageWithoutOverlaySubmenu)).doc).threw = true ∧
    shownSubmenus (closeMenu (Controller.capture pageWithoutOverlaySubmenu)
      (toggleSubmenu "sub1" (loaded pageWithoutOverlaySubmenu)).doc).doc = [2] := by
  decide

/-! ## Instances on the sample page -/

/-- The mirror on the sample page, which has its overlay, after it has loaded. -/
theorem aria_mirrors_with_overlay_sample :
    ∃ d, runCalls (Controller.capture samplePage)
        [.toggleMenu, .openMenu, .closeMenu, .toggleMenu] (loaded samplePage) = .normal () d ∧
      (d.attrAt 0 "aria-expanded" = some "true" ↔ d.hasClassAt 1 "active" = true) ∧
      (d.attrAt 1 "aria-hidden" = some "true" ↔ d.hasClassAt 1 "active" = false) :=
  aria_mirrors_with_overlay (Controller.capture samplePage) (loaded samplePage) 0 1 2
    (by decide) (by decide) (by decide) (by decide) (by decide) (by decide) _

/-- On the sample page, where `sub2` is shown and all three elements are
present, closeMenu hides it. -/
theorem closeMenu_clears_when_attached_sample :
    (Controller.capture samplePage).attached samplePage = true ∧
    shownSubmenus samplePage = [4] ∧
    ∃ d1, closeMenu (Controller.capture samplePage) samplePage = .normal () d1 ∧
      shownSubmenus d1 = [] :=
  ⟨by decide, by decide,
    (closeMenu_clears_when_attached (Controller.capture samplePage) samplePage (by decide)).1⟩

/-- Instance of C3 on the sample page with A = `sub1` and B = `sub2`. -/
theorem toggleSubmenu_twice_witness :
    (∃ d1 d2, toggleSubmenu "sub1" samplePage = .normal () d1 ∧
      toggleSubmenu "sub2" d1 = .normal () d2 ∧ shownSubmenus d2 = [4]) ∧
    (∃ d1 d2, toggleSubmenu "sub1" samplePage = .normal () d1 ∧
      toggleSubmenu "sub1" d1 = .normal () d2 ∧ shownSubmenus d2 = []) :=
  ⟨(toggleSubmenu_twice samplePage "sub1" 3 (by decide)).1 "sub2" 4 (by decide) (by decide),
    (toggleSubmenu_twice samplePage "sub1" 3 (by decide)).2 (by decide)⟩

/-- Instance of C7 on the sample page. -/
theorem at_most_one_submenu_shown_witness :
    (shownSubmenus samplePage).length ≤ 1 ∧
    (shownSubmenus ((Transition.toggleSubmenu "sub1").run (Controller.capture samplePage)
      samplePage).doc).length ≤ 1 :=
  ⟨by decide, at_most_one_submenu_shown (Controller.capture samplePage)
    (Transition.toggleSubmenu "sub1") samplePage (by decide)⟩

/-- Instance of C8 on the sample page, whose menu is closed. -/
theorem toggleMenu_transitions_witness :
    ∃ d1 d2, hamburgerClick (Controller.capture samplePage) samplePage = .normal () d1 ∧
      menuOpen (Controller.capture samplePage) d1 = true ∧ d1.bodyOverflow = "hidden" ∧
      documentKeydown (Controller.capture samplePage) "Escape" d1 = .normal () d2 ∧
      menuOpen (Controller.capture samplePage) d2 = false ∧ d2.bodyOverflow = "" :=
  (toggleMenu_transitions (Controller.capture samplePage) samplePage (by decide)).2.2 (by decide)

/-- Instance of C9 at widths 1024 and 500. -/
theorem resize_breakpoint_witness :
    resizeAction (Controller.capture samplePage) 1024 samplePage =
      closeMenu (Controller.capture samplePage) samplePage ∧
    resizeAction (Controller.capture samplePage) 500 samplePage = .normal () samplePage :=
  ⟨(resize_breakpoint (Controller.capture samplePage) 1024 samplePage).2.1 (by decide),
    (resize_breakpoint (Controller.capture samplePage) 500 samplePage).2.2 (by decide)⟩

/-- Instance of C4: a `debug` record on `example.org`. -/
theorem logToBackend_request_count_witness :
    logToBackend (sampleBrowser "example.org" "") "debug" "m" [] = [] :=
  (logToBackend_request_count (sampleBrowser "example.org" "") "debug" "m" [] none).1
    ⟨rfl, by decide⟩

/-- Instance of C5 (as amended): the token follows another cookie. -/
theorem getCsrfToken_sources_witness :
    getCsrfToken (sampleBrowser "example.org"
      (documentCookie [⟨"sessionid", "abc"⟩, ⟨"csrftoken", "XYZ"⟩])) = .str "XYZ" :=
  (getCsrfToken_sources
    (sampleBrowser "example.org" (documentCookie [⟨"sessionid", "abc"⟩, ⟨"csrftoken", "XYZ"⟩]))
    [⟨"sessionid", "abc"⟩, ⟨"csrftoken", "XYZ"⟩] (by decide) rfl).1 "XYZ" (by decide) (by decide)

/-- C5, where the claim as stated fails: the cookie named `csrftoken` has the
value `a=b`, and getCsrfToken returns `a`. -/
theorem getCsrfToken_truncates_value :
    cookieValue "csrftoken" [⟨"csrftoken", "a=b"⟩] = some "a=b" ∧
    (getCsrfToken (sampleBrowser "example.org"
      (documentCookie [⟨"csrftoken", "a=b"⟩]))).toHeader = "a" ∧
    getCsrfToken (sampleBrowser "example.org"
      (documentCookie [⟨"csrftoken", "a=b"⟩])) ≠ .str "a=b" := by
  refine ⟨by decide, by decide, ?_⟩
  intro h
  have h1 := congrArg JsVal.toHeader h
  revert h1
  decide

end AgrimIT
